import Mathlib

/-!
Shallow embedding of the greenlight repository layer (package `data`,
file embedded from src/unnamed/part_000, with the handler callers in
src/unnamed/part_001 and src/unnamed/part_002): the `Movie` record, the
validation function `ValidateMovie`, and the five store operations
`Insert`, `Get`, `Update`, `Delete`, `GetAll` of `MovieModel`, together
with the pagination metadata computation.  The backing SQL engine is
modelled by an explicit database state (a list of rows plus the next
auto-increment id); backend faults (I/O errors, timeouts) are modelled
by an injected `Option Nat` error code, and the `sql.ErrNoRows` signal
is produced by the query semantics itself.
-/

namespace Greenlight

/-- Movie is the stored entity (src/unnamed/part_000 lines 51-63).
`genres` is an `Option` so that a Go nil slice (`none`) is distinguished
from an empty non-nil slice (`some []`), which `ValidateMovie` observes. -/
structure Movie where
  id : Int
  createdAt : Int
  title : String
  year : Int
  runtime : Int
  genres : Option (List String)
  version : Int
deriving Repr, DecidableEq

/-- StoreError is the domain error taxonomy of the store layer:
`ErrRecordNotFound`, `ErrEditConflict`, and any other backend error
passed through unchanged (represented by an abstract numeric code). -/
inductive StoreError where
  | recordNotFound
  | editConflict
  | backend (code : Nat)
deriving Repr, DecidableEq

/-- DBState models the backing table: the committed rows plus the next
value of the auto-incrementing primary key (spec section 6: ids are
assigned starting at 1 and never reused). -/
structure DBState where
  rows : List Movie
  nextId : Int
deriving Repr, DecidableEq

/-! ## Validation -/

/-- Modelled from the spec: the `validator` package
(`internal/validator`) is not under src/.  Per spec section 4.1 the
validator produces a structured error map keyed by field name; an empty
map means valid.  The map is represented as an association list in which
a key is recorded at most once (the first reason recorded for a field is
kept, matching map-with-first-insert semantics). -/
structure Validator where
  errors : List (String × String)
deriving Repr, DecidableEq

/-- Modelled from the spec: `AddError` records a violation keyed by
field name; a field already carrying a reason keeps its first reason. -/
def Validator.addError (v : Validator) (key msg : String) : Validator :=
  if v.errors.any (fun p => p.1 == key) then v
  else { errors := v.errors ++ [(key, msg)] }

/-- Modelled from the spec: `Check(cond, key, msg)` records the
violation `(key, msg)` exactly when `cond` is false. -/
def Validator.check (v : Validator) (cond : Bool) (key msg : String) : Validator :=
  if cond then v else v.addError key msg

/-- Modelled from the spec: `Valid()` holds when the error map is empty. -/
def Validator.valid (v : Validator) : Bool := v.errors.isEmpty

/-- Modelled from the spec: `validator.Unique(values)` holds when all
values are distinct under exact case-sensitive string equality. -/
def uniqueStrings : List String → Bool
  | [] => true
  | x :: xs => !(xs.contains x) && uniqueStrings xs

/-- ValidateMovie (src/unnamed/part_000 lines 65-80), with
`time.Now().Year()` passed in as `currentYear`.  Go `len` on a string is
its byte length, hence `String.utf8ByteSize`; a nil `Genres` slice is
`none` and `len(nil) = 0`. -/
def ValidateMovie (currentYear : Int) (m : Movie) : Validator :=
  let gs := m.genres.getD []
  (((((((((((Validator.mk []).check
    (m.title != "") "title" "must be provided").check
    (m.title.utf8ByteSize ≤ 500) "title" "must not be more than 500 bytes long").check
    (m.year != 0) "year" "must be provided").check
    (1888 ≤ m.year) "year" "must be greater than 1888").check
    (m.year ≤ currentYear) "year" "must not be in the future").check
    (m.runtime != 0) "runtime" "must be provided").check
    (0 < m.runtime) "runtime" "must be a positive integer").check
    m.genres.isSome "genres" "must be provided").check
    (1 ≤ gs.length) "genres" "must contain at least 1 genre").check
    (gs.length ≤ 5) "genres" "must not contain more than 5 genres").check
    (uniqueStrings gs) "genres" "must not contain duplicate values"

/-! ## Record store operations

Each operation takes the database state and an injected backend fault
(`none` means the backend performs the request normally); a `Bool`
component of the result records whether a backend request was issued at
all, which the sub-1 short-circuits of Get and Delete avoid. -/

/-- Insert (src/unnamed/part_000 lines 91-115): one statement binding
only title, year, runtime and genres, returning the engine-generated
id, created_at and version (the schema's version column defaults to 1
and the primary key auto-increments, per spec section 6; the schema file
is not under src/).  On success the caller's movie has its id,
created_at and version fields overwritten with the returned values. -/
def MovieModel.Insert (db : DBState) (fault : Option Nat) (now : Int) (m : Movie) :
    Except StoreError Movie × DBState :=
  match fault with
  | some e => (.error (.backend e), db)
  | none =>
    let row : Movie :=
      { id := db.nextId, createdAt := now, title := m.title, year := m.year,
        runtime := m.runtime, genres := m.genres, version := 1 }
    (.ok row, { rows := db.rows ++ [row], nextId := db.nextId + 1 })

/-- Point lookup by primary key (the SELECT of Get). -/
def lookupRow (db : DBState) (id : Int) : Option Movie :=
  db.rows.find? (fun r => r.id == id)

/-- Get (src/unnamed/part_000 lines 118-194): sub-1 ids short-circuit to
ErrRecordNotFound without a backend request; otherwise a point lookup,
translating the no-rows signal to ErrRecordNotFound and passing any
other backend error through.  The second component records whether a
backend request was issued. -/
def MovieModel.Get (db : DBState) (fault : Option Nat) (id : Int) :
    Except StoreError Movie × Bool :=
  if id < 1 then (.error .recordNotFound, false)
  else
    match fault with
    | some e => (.error (.backend e), true)
    | none =>
      match lookupRow db id with
      | some r => (.ok r, true)
      | none => (.error .recordNotFound, true)

/-- Predicate of the conditional UPDATE: the row matches on both id and
the caller-supplied version (src/unnamed/part_000 line 205). -/
def matchesPred (m r : Movie) : Bool :=
  r.id == m.id && r.version == m.version

/-- Row rewrite performed by the UPDATE statement: the four mutable
fields are set and version is incremented by 1
(src/unnamed/part_000 line 204). -/
def updateRow (m r : Movie) : Movie :=
  { r with title := m.title, year := m.year, runtime := m.runtime,
           genres := m.genres, version := r.version + 1 }

/-- Semantics of the single conditional UPDATE ... RETURNING version
statement: every row matching the two-part predicate is rewritten; the
returned value is the new version when a row matched, and the no-rows
signal (`none`) otherwise. -/
def runUpdateQuery (db : DBState) (m : Movie) : Option Int × DBState :=
  if db.rows.any (matchesPred m) then
    (some (m.version + 1),
     { db with rows := db.rows.map (fun r => if matchesPred m r then updateRow m r else r) })
  else (none, db)

/-- Update (src/unnamed/part_000 lines 197-242): executes the
conditional update; the no-rows signal becomes ErrEditConflict, any
other backend error passes through, and on success the caller's movie
gets the new version written back. -/
def MovieModel.Update (db : DBState) (fault : Option Nat) (m : Movie) :
    Except StoreError Movie × DBState :=
  match fault with
  | some e => (.error (.backend e), db)
  | none =>
    match runUpdateQuery db m with
    | (some v, dbNew) => (.ok { m with version := v }, dbNew)
    | (none, dbNew) => (.error .editConflict, dbNew)

/-- Delete (src/unnamed/part_000 lines 245-285): sub-1 ids short-circuit
to ErrRecordNotFound without a backend request; otherwise an
unconditional DELETE by primary key, then the affected-row count is
inspected: zero rows removed gives ErrRecordNotFound, otherwise success.
`execFault` models an error from executing the statement (nothing
deleted), `raFault` an error from reading the affected count (the delete
already applied).  The third component records whether a backend request
was issued. -/
def MovieModel.Delete (db : DBState) (execFault raFault : Option Nat) (id : Int) :
    Except StoreError Unit × DBState × Bool :=
  if id < 1 then (.error .recordNotFound, db, false)
  else
    match execFault with
    | some e => (.error (.backend e), db, true)
    | none =>
      let remaining := db.rows.filter (fun r => !(r.id == id))
      let rowsAffected := db.rows.length - remaining.length
      match raFault with
      | some e => (.error (.backend e), { db with rows := remaining }, true)
      | none =>
        if rowsAffected == 0 then (.error .recordNotFound, { db with rows := remaining }, true)
        else (.ok (), { db with rows := remaining }, true)

/-! ## Filters, pagination metadata and the List operation -/

/-- Filters value object (spec section 3): requested page, page size,
sort key and the caller-supplied safelist of permitted sort keys. -/
structure Filters where
  page : Int
  pageSize : Int
  sort : String
  sortSafelist : List String
deriving Repr, DecidableEq

/-- Modelled from the spec: `Filters.limit()` (the filters source file
is not under src/): LIMIT is the page size (spec section 4.6). -/
def Filters.limit (f : Filters) : Int := f.pageSize

/-- Modelled from the spec: `Filters.offset()` (the filters source file
is not under src/): OFFSET is `(page-1)*page_size` (spec section 4.6). -/
def Filters.offset (f : Filters) : Int := (f.page - 1) * f.pageSize

/-- Sort columns reachable through the movies endpoint safelist
(src/unnamed/part_001 line 473). -/
inductive SortColumn where
  | id
  | title
  | year
  | runtime
deriving Repr, DecidableEq

/-- Column name lookup for the four movie sort columns. -/
def colOfName (s : String) : Option SortColumn :=
  if s == "id" then some .id
  else if s == "title" then some .title
  else if s == "year" then some .year
  else if s == "runtime" then some .runtime
  else none

/-- Modelled from the spec: `Filters.sortColumn()` and
`Filters.sortDirection()` (the filters source file is not under src/):
the sort key must belong to the safelist before it is interpolated
(violation panics, modelled as `none`); a leading dash selects
descending order and is stripped to obtain the column name. -/
def Filters.sortKey (f : Filters) : Option (SortColumn × Bool) :=
  if f.sortSafelist.contains f.sort then
    if f.sort.startsWith "-" then
      (colOfName (f.sort.drop 1)).map (fun c => (c, true))
    else
      (colOfName f.sort).map (fun c => (c, false))
  else none

/-- Sort safelist of the movies endpoint
(src/unnamed/part_001 line 473). -/
def movieSortSafelist : List String :=
  ["id", "title", "year", "runtime", "-id", "-title", "-year", "-runtime"]

/-- Pagination metadata record (spec section 3). -/
structure Metadata where
  currentPage : Int
  pageSize : Int
  firstPage : Int
  lastPage : Int
  totalRecords : Int
deriving Repr, DecidableEq

/-- Modelled from the spec: `calculateMetadata` is called at
src/unnamed/part_000 line 420 but its definition file is not under
src/.  Per spec section 3: `first_page = 1`,
`last_page = ceil(total_records / page_size)`, and when
`total_records == 0` all derived fields are zero (an explicit degenerate
case, not an error). -/
def calculateMetadata (totalRecords page pageSize : Int) : Metadata :=
  if totalRecords == 0 then
    { currentPage := 0, pageSize := 0, firstPage := 0, lastPage := 0, totalRecords := 0 }
  else
    { currentPage := page, pageSize := pageSize, firstPage := 1,
      lastPage := (totalRecords + pageSize - 1) / pageSize,
      totalRecords := totalRecords }

/-- Containment predicate of the tag filter:
`genres @> $2` holds when every element of the filter occurs among the
row's genres, under exact case-sensitive string equality; a NULL genres
column satisfies no containment. -/
def genresContains (g : Option (List String)) (f : List String) : Bool :=
  match g with
  | none => false
  | some l => f.all (fun t => l.contains t)

/-- WHERE clause of GetAll (src/unnamed/part_000 lines 342-343),
parametrized by the engine's full-text relevance match `ft` applied to
the search text and the row's title:
`(to_tsvector(title) @@ plainto_tsquery($1) OR $1 = '') AND
 (genres @> $2 OR $2 = '{}')`. -/
def rowMatches (ft : String → String → Bool) (search : String)
    (tagFilter : List String) (r : Movie) : Bool :=
  (ft search r.title || search == "") &&
  (genresContains r.genres tagFilter || tagFilter == [])

/-- Three-way comparison derived from a linear order (the engine's
column comparison). -/
def cmp3 {α : Type} [LinearOrder α] (a b : α) : Ordering :=
  if a < b then .lt else if a = b then .eq else .gt

/-- Column comparison of the ORDER BY sort column. -/
def cmpCol : SortColumn → Movie → Movie → Ordering
  | .id, a, b => cmp3 a.id b.id
  | .title, a, b => cmp3 a.title b.title
  | .year, a, b => cmp3 a.year b.year
  | .runtime, a, b => cmp3 a.runtime b.runtime

/-- Direction application: descending order swaps the comparison. -/
def dirOrd (desc : Bool) (o : Ordering) : Ordering :=
  if desc then o.swap else o

/-- Row comparison of `ORDER BY col dir, id ASC`
(src/unnamed/part_000 line 344): the validated sort column in the
requested direction, then the ascending tie-break on id. -/
def cmpRows (c : SortColumn) (desc : Bool) (a b : Movie) : Ordering :=
  (dirOrd desc (cmpCol c a b)).then (cmp3 a.id b.id)

/-- Boolean non-strict order used to sort the result set. -/
def rowLe (c : SortColumn) (desc : Bool) (a b : Movie) : Bool :=
  match cmpRows c desc a b with
  | .gt => false
  | _ => true

/-- Matching rows of a GetAll call, in the order delivered by the
engine. -/
def sortedMatches (ft : String → String → Bool) (db : DBState)
    (search : String) (tagFilter : List String)
    (c : SortColumn) (desc : Bool) : List Movie :=
  (db.rows.filter (rowMatches ft search tagFilter)).mergeSort (rowLe c desc)

/-- Scan loop of GetAll (src/unnamed/part_000 lines 381-406):
`totalRecords` starts at 0 and is overwritten with the window-function
count once per delivered row. -/
def scanTotalRecords (windowCount : Int) : List Movie → Int → Int
  | [], acc => acc
  | _ :: rest, _ => scanTotalRecords windowCount rest windowCount

/-- GetAll (src/unnamed/part_000 lines 294-423): one statement filtering
by the WHERE clause, ordering by the safelisted column and direction
with the id tie-break, applying LIMIT/OFFSET, and computing the total
matching count via a window function delivered alongside every row; the
scanned total and the requested page/page_size feed
`calculateMetadata`.  `c` and `desc` are the validated sort key
interpolated into the query; a backend fault surfaces unchanged. -/
def MovieModel.GetAll (ft : String → String → Bool) (db : DBState)
    (fault : Option Nat) (title : String) (genres : List String)
    (filters : Filters) (c : SortColumn) (desc : Bool) :
    Except StoreError (List Movie × Metadata) :=
  match fault with
  | some e => .error (.backend e)
  | none =>
    let fullCount : Int := (db.rows.filter (rowMatches ft title genres)).length
    let page := ((sortedMatches ft db title genres c desc).drop
        (Filters.offset filters).toNat).take (Filters.limit filters).toNat
    let totalRecords := scanTotalRecords fullCount page 0
    .ok (page, calculateMetadata totalRecords filters.page filters.pageSize)

/-- Iterated optimistic updates: each round feeds the movie returned by
the previous successful Update (carrying the new version) back into
Update, as the update handler does after a re-fetch; a failed round
keeps the previous movie. -/
def chainUpdates (m : Movie) (db : DBState) : Nat → Movie × DBState
  | 0 => (m, db)
  | n + 1 =>
    let p := chainUpdates m db n
    match MovieModel.Update p.2 none p.1 with
    | (.ok mv, db2) => (mv, db2)
    | (.error _, db2) => (p.1, db2)

/-- Key-presence predicate on the validator error map. -/
def hasKey (v : Validator) (k : String) : Prop :=
  ∃ p ∈ v.errors, p.1 = k

/-- Rows of one page of a List call: the ordered matching rows with
OFFSET `(page-1)*pageSize` and LIMIT `pageSize` applied. -/
def listPage (ft : String → String → Bool) (db : DBState) (search : String)
    (tagFilter : List String) (c : SortColumn) (desc : Bool)
    (page pageSize : Int) : List Movie :=
  ((sortedMatches ft db search tagFilter c desc).drop
    ((page - 1) * pageSize).toNat).take pageSize.toNat

/-! ## Theorems -/

/-- C7: for every id, Get with id < 1 fails with NotFound without issuing
a backend request; with id ≥ 1 it passes any backend error through
unchanged, fails with NotFound exactly when the point lookup signals no
matching row, and otherwise returns the stored row in full. -/
theorem get_error_contract (db : DBState) (fault : Option Nat) (id : Int) :
    (id < 1 → MovieModel.Get db fault id = (.error .recordNotFound, false)) ∧
    (1 ≤ id → ∀ e, fault = some e →
      MovieModel.Get db fault id = (.error (.backend e), true)) ∧
    (1 ≤ id → fault = none → lookupRow db id = none →
      MovieModel.Get db fault id = (.error .recordNotFound, true)) ∧
    (1 ≤ id → fault = none → ∀ r, lookupRow db id = some r →
      MovieModel.Get db fault id = (.ok r, true)) := by
  refine ⟨?_, ?_, ?_, ?_⟩
  · intro h
    simp [MovieModel.Get, h]
  · intro h e he
    subst he
    simp [MovieModel.Get, show ¬ id < 1 by omega]
  · intro h hf hl
    subst hf
    simp [MovieModel.Get, show ¬ id < 1 by omega, hl]
  · intro h hf r hr
    subst hf
    simp [MovieModel.Get, show ¬ id < 1 by omega, hr]

/-- Witness for C7 at concrete inputs: a sub-1 id short-circuits, a
backend fault passes through, a missing row maps to NotFound, and a
present row is returned. -/
theorem get_error_contract_witness :
    MovieModel.Get ⟨[], 1⟩ none 0 = (.error .recordNotFound, false) ∧
    MovieModel.Get ⟨[], 1⟩ (some 7) 2 = (.error (.backend 7), true) ∧
    MovieModel.Get ⟨[], 1⟩ none 2 = (.error .recordNotFound, true) ∧
    MovieModel.Get ⟨[⟨2, 0, "t", 2000, 90, some ["drama"], 1⟩], 3⟩ none 2 =
      (.ok ⟨2, 0, "t", 2000, 90, some ["drama"], 1⟩, true) := by
  refine ⟨?_, ?_, ?_, ?_⟩
  · exact (get_error_contract ⟨[], 1⟩ none 0).1 (by decide)
  · exact (get_error_contract ⟨[], 1⟩ (some 7) 2).2.1 (by decide) 7 rfl
  · exact (get_error_contract ⟨[], 1⟩ none 2).2.2.1 (by decide) rfl (by decide)
  · exact (get_error_contract ⟨[⟨2, 0, "t", 2000, 90, some ["drama"], 1⟩], 3⟩ none 2).2.2.2
      (by decide) rfl _ (by decide)

/-- C8: for every id, Delete with id < 1 fails with NotFound without
issuing a backend request; otherwise the unconditional delete removes
every row with that id and the affected-row count decides the outcome:
zero rows removed gives NotFound (with the table unchanged), a removed
row gives success, and a backend error from execution or from reading
the affected count passes through unchanged. -/
theorem delete_error_contract (db : DBState) (ef ra : Option Nat) (id : Int) :
    (id < 1 → MovieModel.Delete db ef ra id = (.error .recordNotFound, db, false)) ∧
    (1 ≤ id → ∀ e, ef = some e →
      MovieModel.Delete db ef ra id = (.error (.backend e), db, true)) ∧
    (1 ≤ id → ef = none → ∀ e, ra = some e →
      MovieModel.Delete db ef ra id =
        (.error (.backend e), { db with rows := db.rows.filter (fun r => !(r.id == id)) }, true)) ∧
    (1 ≤ id → ef = none → ra = none → db.rows.any (fun r => r.id == id) = false →
      MovieModel.Delete db ef ra id = (.error .recordNotFound, db, true)) ∧
    (1 ≤ id → ef = none → ra = none → db.rows.any (fun r => r.id == id) = true →
      MovieModel.Delete db ef ra id =
        (.ok (), { db with rows := db.rows.filter (fun r => !(r.id == id)) }, true)) := by
  refine ⟨?_, ?_, ?_, ?_, ?_⟩
  · intro h
    simp [MovieModel.Delete, h]
  · intro h e he
    subst he
    simp [MovieModel.Delete, show ¬ id < 1 by omega]
  · intro h hf e he
    subst hf he
    simp [MovieModel.Delete, show ¬ id < 1 by omega]
  · intro h hf hr hnone
    subst hf hr
    have hfix : db.rows.filter (fun r => !(r.id == id)) = db.rows := by
      rw [List.filter_eq_self]
      intro a ha
      rw [List.any_eq_false] at hnone
      simp [hnone a ha]
    simp [MovieModel.Delete, show ¬ id < 1 by omega, hfix]
  · intro h hf hr hsome
    subst hf hr
    have hlt : (db.rows.filter (fun r => !(r.id == id))).length < db.rows.length := by
      rw [List.length_filter_lt_length_iff_exists]
      simp only [List.any_eq_true] at hsome
      obtain ⟨x, hx, hpx⟩ := hsome
      exact ⟨x, hx, by simp [hpx]⟩
    simp [MovieModel.Delete, show ¬ id < 1 by omega, Nat.sub_eq_zero_iff_le]
    omega

/-- Witness for C8 at concrete inputs: sub-1 short-circuit, execution
fault, affected-count fault, absent row, and present row. -/
theorem delete_error_contract_witness :
    MovieModel.Delete ⟨[], 1⟩ none none (-2) = (.error .recordNotFound, ⟨[], 1⟩, false) ∧
    MovieModel.Delete ⟨[], 1⟩ (some 3) none 5 = (.error (.backend 3), ⟨[], 1⟩, true) ∧
    MovieModel.Delete ⟨[⟨5, 0, "t", 2000, 90, some ["drama"], 1⟩], 6⟩ none (some 4) 5 =
      (.error (.backend 4), ⟨[], 6⟩, true) ∧
    MovieModel.Delete ⟨[], 1⟩ none none 5 = (.error .recordNotFound, ⟨[], 1⟩, true) ∧
    MovieModel.Delete ⟨[⟨5, 0, "t", 2000, 90, some ["drama"], 1⟩], 6⟩ none none 5 =
      (.ok (), ⟨[], 6⟩, true) := by
  refine ⟨?_, ?_, ?_, ?_, ?_⟩
  · exact (delete_error_contract ⟨[], 1⟩ none none (-2)).1 (by decide)
  · exact (delete_error_contract ⟨[], 1⟩ (some 3) none 5).2.1 (by decide) 3 rfl
  · have h := (delete_error_contract ⟨[⟨5, 0, "t", 2000, 90, some ["drama"], 1⟩], 6⟩
      none (some 4) 5).2.2.1 (by decide) rfl 4 rfl
    rw [h]
    rfl
  · exact (delete_error_contract ⟨[], 1⟩ none none 5).2.2.2.1 (by decide) rfl rfl (by decide)
  · have h := (delete_error_contract ⟨[⟨5, 0, "t", 2000, 90, some ["drama"], 1⟩], 6⟩
      none none 5).2.2.2.2 (by decide) rfl rfl (by decide)
    rw [h]
    rfl

/-- C1: every Update call has exactly one of three outcomes: the
conditional update matched a row on both id and the caller-supplied
version, rewrote each matched row with its version incremented by
exactly 1, and returned the new version as success; no row matched and
the call returns EditConflict with the table unchanged; or a backend
fault is returned unchanged.  Update never produces the NotFound error
kind. -/
theorem update_outcome_trichotomy (db : DBState) (fault : Option Nat) (m : Movie) :
    ((∃ e, fault = some e ∧
        MovieModel.Update db fault m = (.error (.backend e), db)) ∨
     (fault = none ∧ db.rows.any (matchesPred m) = true ∧
        MovieModel.Update db fault m =
          (.ok { m with version := m.version + 1 },
           { db with
             rows := db.rows.map (fun r => if matchesPred m r then updateRow m r else r) }) ∧
        (∀ r ∈ db.rows, matchesPred m r = true →
          (updateRow m r).version = r.version + 1)) ∨
     (fault = none ∧ db.rows.any (matchesPred m) = false ∧
        MovieModel.Update db fault m = (.error .editConflict, db))) ∧
    (MovieModel.Update db fault m).1 ≠ .error .recordNotFound := by
  constructor
  · match fault with
    | some e =>
      exact .inl ⟨e, rfl, by simp [MovieModel.Update]⟩
    | none =>
      by_cases h : db.rows.any (matchesPred m) = true
      · refine .inr (.inl ⟨rfl, h, ?_, ?_⟩)
        · simp [MovieModel.Update, runUpdateQuery, h]
        · intro r _ _
          simp [updateRow]
      · refine .inr (.inr ⟨rfl, by simpa using h, ?_⟩)
        simp [MovieModel.Update, runUpdateQuery, h]
  · match fault with
    | some e => simp [MovieModel.Update]
    | none =>
      by_cases h : db.rows.any (matchesPred m) = true <;>
        simp [MovieModel.Update, runUpdateQuery, h]

/-- Witness for C1: the trichotomy evaluated at a one-row table, for a
matching version, a stale version, and an injected backend fault. -/
theorem update_outcome_trichotomy_witness :
    (MovieModel.Update ⟨[⟨1, 0, "a", 2000, 90, some ["drama"], 1⟩], 2⟩ none
        ⟨1, 0, "b", 2001, 95, some ["war"], 1⟩).1 ≠ .error .recordNotFound ∧
    (MovieModel.Update ⟨[⟨1, 0, "a", 2000, 90, some ["drama"], 1⟩], 2⟩ (some 9)
        ⟨1, 0, "b", 2001, 95, some ["war"], 1⟩).1 ≠ .error .recordNotFound := by
  constructor
  · exact (update_outcome_trichotomy ⟨[⟨1, 0, "a", 2000, 90, some ["drama"], 1⟩], 2⟩ none
      ⟨1, 0, "b", 2001, 95, some ["war"], 1⟩).2
  · exact (update_outcome_trichotomy ⟨[⟨1, 0, "a", 2000, 90, some ["drama"], 1⟩], 2⟩ (some 9)
      ⟨1, 0, "b", 2001, 95, some ["war"], 1⟩).2

/-- Invariant of iterated updates: starting from a table holding a row
matching the movie's id and version, every round succeeds, the carried
movie's version grows by exactly one per round, and the table keeps a
row matching the carried movie. -/
theorem chainUpdates_invariant (m : Movie) (db : DBState)
    (h : db.rows.any (matchesPred m) = true) (N : Nat) :
    (chainUpdates m db N).1.version = m.version + N ∧
    (chainUpdates m db N).1.id = m.id ∧
    (chainUpdates m db N).2.rows.any (matchesPred (chainUpdates m db N).1) = true := by
  induction N with
  | zero => simpa [chainUpdates] using h
  | succ n ih =>
    obtain ⟨hv, hid, hany⟩ := ih
    have hstep : MovieModel.Update (chainUpdates m db n).2 none (chainUpdates m db n).1 =
        (.ok { (chainUpdates m db n).1 with version := (chainUpdates m db n).1.version + 1 },
         { (chainUpdates m db n).2 with
           rows := (chainUpdates m db n).2.rows.map
             (fun r => if matchesPred (chainUpdates m db n).1 r
                       then updateRow (chainUpdates m db n).1 r else r) }) := by
      simp [MovieModel.Update, runUpdateQuery, hany]
    have hchain : chainUpdates m db (n + 1) =
        ({ (chainUpdates m db n).1 with version := (chainUpdates m db n).1.version + 1 },
         { (chainUpdates m db n).2 with
           rows := (chainUpdates m db n).2.rows.map
             (fun r => if matchesPred (chainUpdates m db n).1 r
                       then updateRow (chainUpdates m db n).1 r else r) }) := by
      rw [chainUpdates, hstep]
    rw [hchain]
    refine ⟨by simpa using by omega, by simpa using hid, ?_⟩
    rw [List.any_eq_true] at hany ⊢
    obtain ⟨r, hr, hpred⟩ := hany
    refine ⟨updateRow (chainUpdates m db n).1 r, ?_, ?_⟩
    · simp only [List.mem_map]
      exact ⟨r, hr, by simp [hpred]⟩
    · simp only [matchesPred, Bool.and_eq_true, beq_iff_eq] at hpred ⊢
      simp [updateRow, hpred.1, hpred.2]

/-- C2: the engine assigns version 1 on insert; N successful Updates,
each targeting the version returned by the previous one, raise the
carried version from V to V+N; and an Update presenting a version
differing from the current version of every row with its id fails with
EditConflict and leaves the table unchanged. -/
theorem version_invariant_contract (db : DBState) (now : Int) (m mStale : Movie) (N : Nat) :
    (∃ mv db2, MovieModel.Insert db none now m = (.ok mv, db2) ∧ mv.version = 1) ∧
    (db.rows.any (matchesPred m) = true →
      (chainUpdates m db N).1.version = m.version + N) ∧
    ((∀ r ∈ db.rows, r.id = mStale.id → r.version ≠ mStale.version) →
      MovieModel.Update db none mStale = (.error .editConflict, db)) := by
  refine ⟨⟨_, _, rfl, rfl⟩, ?_, ?_⟩
  · intro h
    exact (chainUpdates_invariant m db h N).1
  · intro h
    have hany : db.rows.any (matchesPred mStale) = false := by
      rw [List.any_eq_false]
      intro r hr
      simp only [matchesPred, Bool.and_eq_true, beq_iff_eq, not_and]
      intro hid
      exact fun hv => h r hr hid hv
    simp [MovieModel.Update, runUpdateQuery, hany]

/-- Witness for C2: on a one-row table at version 1, three chained
updates end at version 4, and a stale update at version 5 is rejected
with the table unchanged. -/
theorem version_invariant_contract_witness :
    (chainUpdates ⟨1, 0, "b", 2001, 95, some ["war"], 1⟩
        ⟨[⟨1, 0, "a", 2000, 90, some ["drama"], 1⟩], 2⟩ 3).1.version = 1 + 3 ∧
    MovieModel.Update ⟨[⟨1, 0, "a", 2000, 90, some ["drama"], 1⟩], 2⟩ none
        ⟨1, 0, "b", 2001, 95, some ["war"], 5⟩ =
      (.error .editConflict, ⟨[⟨1, 0, "a", 2000, 90, some ["drama"], 1⟩], 2⟩) := by
  constructor
  · exact (version_invariant_contract ⟨[⟨1, 0, "a", 2000, 90, some ["drama"], 1⟩], 2⟩ 0
      ⟨1, 0, "b", 2001, 95, some ["war"], 1⟩ ⟨1, 0, "b", 2001, 95, some ["war"], 5⟩ 3).2.1
      (by decide)
  · exact (version_invariant_contract ⟨[⟨1, 0, "a", 2000, 90, some ["drama"], 1⟩], 2⟩ 0
      ⟨1, 0, "b", 2001, 95, some ["war"], 1⟩ ⟨1, 0, "b", 2001, 95, some ["war"], 5⟩ 3).2.2
      (by decide)

/-- C10: Insert reads only the four mutable fields of the caller's
movie — replacing the caller-supplied id, created_at and version leaves
the entire call (returned movie, stored row and resulting table)
unchanged — and on success the returned movie carries the engine's id,
created_at and version while its four mutable fields equal the
caller's. -/
theorem insert_frame_contract (db : DBState) (fault : Option Nat) (now : Int)
    (m : Movie) (i cAt v : Int) :
    MovieModel.Insert db fault now { m with id := i, createdAt := cAt, version := v } =
      MovieModel.Insert db fault now m ∧
    (∀ mv db2, MovieModel.Insert db none now m = (.ok mv, db2) →
      mv.title = m.title ∧ mv.year = m.year ∧ mv.runtime = m.runtime ∧
      mv.genres = m.genres ∧ mv.id = db.nextId ∧ mv.createdAt = now ∧
      mv.version = 1 ∧ db2.rows = db.rows ++ [mv] ∧ db2.nextId = db.nextId + 1) := by
  constructor
  · cases fault <;> simp [MovieModel.Insert]
  · intro mv db2 h
    simp only [MovieModel.Insert, Prod.mk.injEq, Except.ok.injEq] at h
    obtain ⟨hmv, hdb⟩ := h
    subst hmv
    subst hdb
    simp

/-- Witness for C10: inserting a movie carrying junk id, created_at and
version yields the same result as inserting the clean movie, and the
returned movie carries the engine-generated values. -/
theorem insert_frame_contract_witness :
    MovieModel.Insert ⟨[], 1⟩ none 42 ⟨99, 77, "a", 2000, 90, some ["drama"], 55⟩ =
      MovieModel.Insert ⟨[], 1⟩ none 42 ⟨0, 0, "a", 2000, 90, some ["drama"], 0⟩ ∧
    (MovieModel.Insert ⟨[], 1⟩ none 42 ⟨0, 0, "a", 2000, 90, some ["drama"], 0⟩).1 =
      .ok ⟨1, 42, "a", 2000, 90, some ["drama"], 1⟩ := by
  constructor
  · exact (insert_frame_contract ⟨[], 1⟩ none 42 ⟨0, 0, "a", 2000, 90, some ["drama"], 0⟩
      99 77 55).1
  · rfl

/-- Emptiness of the error map through one Check call: the map stays
empty exactly when it was empty and the checked condition held. -/
theorem check_errors_nil (v : Validator) (b : Bool) (k s : String) :
    (v.check b k s).errors = [] ↔ v.errors = [] ∧ b = true := by
  cases b
  · simp only [Validator.check, Bool.false_eq_true, if_false, and_false, iff_false]
    unfold Validator.addError
    split
    · rename_i hany
      rw [List.any_eq_true] at hany
      obtain ⟨x, hx, _⟩ := hany
      intro hnil
      rw [hnil] at hx
      exact absurd hx (List.not_mem_nil x)
    · simp
  · simp [Validator.check]

/-- Key presence through one Check call: the key is present afterwards
exactly when it was present before or this check failed on that key. -/
theorem check_hasKey (v : Validator) (b : Bool) (k s k2 : String) :
    hasKey (v.check b k s) k2 ↔ hasKey v k2 ∨ (b = false ∧ k = k2) := by
  cases b
  · simp only [Validator.check, Bool.false_eq_true, if_false]
    unfold Validator.addError hasKey
    split
    · rename_i hany
      constructor
      · exact fun h => .inl h
      · rintro (h | ⟨-, hk⟩)
        · exact h
        · subst hk
          rw [List.any_eq_true] at hany
          obtain ⟨p, hp, hpk⟩ := hany
          exact ⟨p, hp, by simpa using hpk⟩
    · constructor
      · rintro ⟨p, hp, hpk⟩
        rw [List.mem_append] at hp
        rcases hp with hp | hp
        · exact .inl ⟨p, hp, hpk⟩
        · simp only [List.mem_singleton] at hp
          subst hp
          exact .inr ⟨by simp, hpk⟩
      · rintro (⟨p, hp, hpk⟩ | ⟨-, hk⟩)
        · exact ⟨p, List.mem_append.mpr (.inl hp), hpk⟩
        · exact ⟨(k, s), List.mem_append.mpr (.inr (by simp)), hk⟩
  · simp [Validator.check, Bool.true_eq_false]

/-- Fresh validator has no keys. -/
theorem hasKey_nil (k : String) : hasKey (Validator.mk []) k ↔ False := by
  simp [hasKey]

/-- C9: ValidateMovie leaves the error map empty exactly when every
constraint holds (title non-empty and at most 500 bytes; year nonzero,
at least 1888, at most the current year; runtime nonzero and positive;
genres non-nil with 1 to 5 distinct entries), and each field's key is
present exactly when one of that field's constraints fails — so a
violation is recorded for every failing field, not only the first. -/
theorem validate_movie_contract (cy : Int) (m : Movie) :
    ((ValidateMovie cy m).errors = [] ↔
      (m.title ≠ "" ∧ m.title.utf8ByteSize ≤ 500 ∧ m.year ≠ 0 ∧ 1888 ≤ m.year ∧
       m.year ≤ cy ∧ m.runtime ≠ 0 ∧ 0 < m.runtime ∧ m.genres.isSome = true ∧
       1 ≤ (m.genres.getD []).length ∧ (m.genres.getD []).length ≤ 5 ∧
       uniqueStrings (m.genres.getD []) = true)) ∧
    (hasKey (ValidateMovie cy m) "title" ↔
      ¬(m.title ≠ "" ∧ m.title.utf8ByteSize ≤ 500)) ∧
    (hasKey (ValidateMovie cy m) "year" ↔
      ¬(m.year ≠ 0 ∧ 1888 ≤ m.year ∧ m.year ≤ cy)) ∧
    (hasKey (ValidateMovie cy m) "runtime" ↔
      ¬(m.runtime ≠ 0 ∧ 0 < m.runtime)) ∧
    (hasKey (ValidateMovie cy m) "genres" ↔
      ¬(m.genres.isSome = true ∧ 1 ≤ (m.genres.getD []).length ∧
        (m.genres.getD []).length ≤ 5 ∧ uniqueStrings (m.genres.getD []) = true)) := by
  refine ⟨?_, ?_, ?_, ?_, ?_⟩ <;>
  · simp only [ValidateMovie, check_errors_nil, check_hasKey, hasKey_nil,
      Bool.eq_false_iff, bne_iff_ne, ne_eq, decide_eq_true_eq]
    simp only [String.reduceEq, and_false, and_true, false_or, or_false,
      false_and, true_and, and_self, or_self, not_false_eq_true, not_true, not_not]
    tauto

/-- Witness for C9: a fully valid movie yields an empty error map, and
a movie violating both a title and a genres constraint records both
field keys. -/
theorem validate_movie_contract_witness :
    (ValidateMovie 2026 ⟨0, 0, "Casablanca", 1942, 102, some ["drama", "romance"], 0⟩).errors
      = [] ∧
    hasKey (ValidateMovie 2026 ⟨0, 0, "", 0, 102, none, 0⟩) "title" ∧
    hasKey (ValidateMovie 2026 ⟨0, 0, "", 0, 102, none, 0⟩) "genres" := by
  refine ⟨?_, ?_, ?_⟩
  · exact (validate_movie_contract 2026
      ⟨0, 0, "Casablanca", 1942, 102, some ["drama", "romance"], 0⟩).1.mpr (by decide)
  · exact (validate_movie_contract 2026 ⟨0, 0, "", 0, 102, none, 0⟩).2.1.mpr (by decide)
  · exact (validate_movie_contract 2026 ⟨0, 0, "", 0, 102, none, 0⟩).2.2.2.2.mpr (by decide)

/-- C4 counterexample: the claim asserts first_page = 1 for every input
with page_size ≥ 1, yet at total_records = 0 (page 1, page_size 10, a
valid input) the metadata's first_page is 0, as the degenerate zero-row
case zeroes every derived field. -/
theorem calculateMetadata_zero_case_counterexample :
    (1 : Int) ≤ 10 ∧ (calculateMetadata 0 1 10).firstPage = 0 ∧
    ¬ (calculateMetadata 0 1 10).firstPage = 1 := by
  decide

/-- C4 (amended): for page_size ≥ 1, a zero total yields the all-zero
metadata, and a positive total yields first_page = 1, the requested
page and page_size, the total itself, and
last_page = ceil(total_records / page_size) — characterized both by the
bounds `(last_page - 1) * page_size < total_records ≤ last_page *
page_size` and as the rational ceiling.  25 records with page_size 10
give last_page = 3. -/
theorem calculateMetadata_contract (t p ps : Int) (hps : 1 ≤ ps) :
    (t = 0 → calculateMetadata t p ps = ⟨0, 0, 0, 0, 0⟩) ∧
    (1 ≤ t →
      (calculateMetadata t p ps).firstPage = 1 ∧
      (calculateMetadata t p ps).currentPage = p ∧
      (calculateMetadata t p ps).pageSize = ps ∧
      (calculateMetadata t p ps).totalRecords = t ∧
      t ≤ (calculateMetadata t p ps).lastPage * ps ∧
      ((calculateMetadata t p ps).lastPage - 1) * ps < t ∧
      (calculateMetadata t p ps).lastPage = ⌈(t : ℚ) / (ps : ℚ)⌉) := by
  constructor
  · intro h
    subst h
    rfl
  · intro ht
    have htz : (t == 0) = false := by
      simp only [beq_eq_false_iff_ne, ne_eq]
      omega
    have hmod := Int.ediv_add_emod (t + ps - 1) ps
    have hr0 : 0 ≤ (t + ps - 1) % ps := Int.emod_nonneg _ (by omega)
    have hr1 : (t + ps - 1) % ps < ps := Int.emod_lt_of_pos _ (by omega)
    have hle : t ≤ ((t + ps - 1) / ps) * ps := by nlinarith
    have hlt : (((t + ps - 1) / ps) - 1) * ps < t := by nlinarith
    refine ⟨?_, ?_, ?_, ?_, ?_, ?_, ?_⟩ <;>
      simp only [calculateMetadata, htz, Bool.false_eq_true, if_false]
    · exact hle
    · exact hlt
    · have hps' : (0 : ℚ) < (ps : ℚ) := by exact_mod_cast (by omega : (0:Int) < ps)
      rw [eq_comm, Int.ceil_eq_iff]
      constructor
      · rw [lt_div_iff₀ hps']
        exact_mod_cast hlt
      · rw [div_le_iff₀ hps']
        exact_mod_cast hle

/-- Witness for C4: the amended contract evaluated at the spec's worked
example — 25 records with pages of size 10 give first_page 1 and
last_page 3 on page 2 — and at the zero-record degenerate case. -/
theorem calculateMetadata_contract_witness :
    calculateMetadata 0 1 10 = ⟨0, 0, 0, 0, 0⟩ ∧
    (calculateMetadata 25 2 10).firstPage = 1 ∧
    (calculateMetadata 25 2 10).lastPage = ⌈(25 : ℚ) / (10 : ℚ)⌉ := by
  refine ⟨?_, ?_, ?_⟩
  · exact (calculateMetadata_contract 0 1 10 (by decide)).1 rfl
  · exact ((calculateMetadata_contract 25 2 10 (by decide)).2 (by decide)).1
  · exact ((calculateMetadata_contract 25 2 10 (by decide)).2 (by decide)).2.2.2.2.2.2

/-- Scan-loop total: the loop's accumulator keeps its initial value on
an empty page and otherwise ends at the window count. -/
theorem scanTotalRecords_eq (w : Int) :
    ∀ (l : List Movie) (acc : Int),
      scanTotalRecords w l acc = if l.isEmpty then acc else w := by
  intro l
  induction l with
  | nil => intro acc; rfl
  | cons x rest ih =>
    intro acc
    simp [scanTotalRecords, ih]

/-- C3 counterexample: a successful List call whose offset lies beyond
the last matching row (one matching row, page 2 of size 10) succeeds
with total_records 0 in its metadata although the full match count is
1 — the window count is only delivered with rows, so an empty page
leaves the scanned total at its initial 0. -/
theorem getAll_total_records_counterexample :
    MovieModel.GetAll (fun _ _ => false) ⟨[⟨1, 0, "a", 2000, 90, some ["drama"], 1⟩], 2⟩ none
        "" [] ⟨2, 10, "id", movieSortSafelist⟩ .id false =
      .ok ([], ⟨0, 0, 0, 0, 0⟩) ∧
    ((⟨[⟨1, 0, "a", 2000, 90, some ["drama"], 1⟩], 2⟩ : DBState).rows.filter
        (rowMatches (fun _ _ => false) "" [])).length = 1 := by
  constructor
  · simp only [MovieModel.GetAll, sortedMatches]
    rw [show (⟨[⟨1, 0, "a", 2000, 90, some ["drama"], 1⟩], 2⟩ : DBState).rows.filter
        (rowMatches (fun _ _ => false) "" []) = [⟨1, 0, "a", 2000, 90, some ["drama"], 1⟩]
      from by decide]
    rw [List.mergeSort_singleton]
    rfl
  · decide

/-- C3 (amended): in every successful List call, the total_records used
to build the metadata equals the exact count of all rows matching the
filter (ignoring limit and offset) whenever the returned page holds at
least one row; on a page holding no rows (offset at or beyond the end of
the matching set) the scanned total is 0 and the metadata collapses to
the all-zero record. -/
theorem getAll_total_records_contract (ft : String → String → Bool) (db : DBState)
    (ti : String) (gs : List String) (f : Filters) (c : SortColumn) (desc : Bool)
    (rows : List Movie) (md : Metadata)
    (h : MovieModel.GetAll ft db none ti gs f c desc = .ok (rows, md)) :
    (rows ≠ [] →
      md.totalRecords = ((db.rows.filter (rowMatches ft ti gs)).length : Int) ∧
      md.currentPage = f.page ∧ md.pageSize = f.pageSize) ∧
    (rows = [] → md = ⟨0, 0, 0, 0, 0⟩) := by
  simp only [MovieModel.GetAll, Except.ok.injEq, Prod.mk.injEq] at h
  obtain ⟨hrows, hmd⟩ := h
  constructor
  · intro hne
    rw [← hrows] at hne
    have hsm : sortedMatches ft db ti gs c desc ≠ [] := by
      intro hnil
      apply hne
      rw [hnil]
      simp
    have hpos : 0 < (db.rows.filter (rowMatches ft ti gs)).length := by
      rw [← @List.length_mergeSort _ (rowLe c desc)]
      exact List.length_pos.mpr hsm
    have hne2 : (((sortedMatches ft db ti gs c desc).drop
        (Filters.offset f).toNat).take (Filters.limit f).toNat).isEmpty = false := by
      cases hl : (((sortedMatches ft db ti gs c desc).drop
          (Filters.offset f).toNat).take (Filters.limit f).toNat).isEmpty
      · rfl
      · rw [List.isEmpty_iff] at hl
        exact absurd hl hne
    rw [scanTotalRecords_eq] at hmd
    rw [hne2] at hmd
    simp only [Bool.false_eq_true, if_false] at hmd
    have hz : (((db.rows.filter (rowMatches ft ti gs)).length : Int) == 0) = false := by
      simp only [beq_eq_false_iff_ne, ne_eq]
      omega
    rw [← hmd]
    simp [calculateMetadata, hz]
  · intro hnil
    rw [hnil] at hrows
    rw [scanTotalRecords_eq] at hmd
    rw [hrows] at hmd
    simp only [List.isEmpty_nil, if_true] at hmd
    rw [← hmd]
    rfl

/-- Witness for C3: on a one-row table, page 1 of size 10 returns the
row and metadata whose total_records is the full match count 1. -/
theorem getAll_total_records_contract_witness :
    (Metadata.totalRecords ⟨1, 10, 1, 1, 1⟩ =
      (((⟨[⟨1, 0, "a", 2000, 90, some ["drama"], 1⟩], 2⟩ : DBState).rows.filter
        (rowMatches (fun _ _ => false) "" [])).length : Int)) := by
  have hcall : MovieModel.GetAll (fun _ _ => false)
      ⟨[⟨1, 0, "a", 2000, 90, some ["drama"], 1⟩], 2⟩ none "" []
      ⟨1, 10, "id", movieSortSafelist⟩ .id false =
      .ok ([⟨1, 0, "a", 2000, 90, some ["drama"], 1⟩], ⟨1, 10, 1, 1, 1⟩) := by
    simp only [MovieModel.GetAll, sortedMatches]
    rw [show (⟨[⟨1, 0, "a", 2000, 90, some ["drama"], 1⟩], 2⟩ : DBState).rows.filter
        (rowMatches (fun _ _ => false) "" []) = [⟨1, 0, "a", 2000, 90, some ["drama"], 1⟩]
      from by decide]
    rw [List.mergeSort_singleton]
    rfl
  exact ((getAll_total_records_contract (fun _ _ => false)
      ⟨[⟨1, 0, "a", 2000, 90, some ["drama"], 1⟩], 2⟩ "" []
      ⟨1, 10, "id", movieSortSafelist⟩ .id false
      [⟨1, 0, "a", 2000, 90, some ["drama"], 1⟩] ⟨1, 10, 1, 1, 1⟩ hcall).1
      (by decide)).1

/-- C5: a row with non-NULL tags is included in the match set of a List
call exactly when (the search text is empty OR the title matches it
under the full-text relevance comparison) AND (the tag filter is empty
OR the row's genres contain every filter tag under exact case-sensitive
string equality); empty search text and empty tag filter together match
every row, and membership in the delivered match set coincides with
this rule over the table's rows. -/
theorem list_matching_rule (ft : String → String → Bool) (search : String)
    (tags : List String) (r : Movie) (gs : List String) (hg : r.genres = some gs) :
    (rowMatches ft search tags r = true ↔
      ((search = "" ∨ ft search r.title = true) ∧ (tags = [] ∨ ∀ t ∈ tags, t ∈ gs))) ∧
    rowMatches ft "" [] r = true ∧
    (∀ (db : DBState) (c : SortColumn) (desc : Bool),
      r ∈ sortedMatches ft db search tags c desc ↔
        r ∈ db.rows ∧ rowMatches ft search tags r = true) := by
  refine ⟨?_, ?_, ?_⟩
  · simp only [rowMatches, genresContains, hg, Bool.and_eq_true, Bool.or_eq_true,
      beq_iff_eq, List.all_eq_true, List.elem_iff, decide_eq_true_eq]
    tauto
  · simp [rowMatches]
  · intro db c desc
    unfold sortedMatches
    rw [(List.mergeSort_perm _ _).mem_iff, List.mem_filter]

/-- Witness for C5: the matching rule evaluated on a concrete row — the
empty search and empty filter match it, and a one-tag filter equal to
its genre matches it. -/
theorem list_matching_rule_witness :
    rowMatches (fun _ _ => false) "" [] ⟨1, 0, "a", 2000, 90, some ["drama"], 1⟩ = true ∧
    rowMatches (fun _ _ => false) "" ["drama"] ⟨1, 0, "a", 2000, 90, some ["drama"], 1⟩
      = true := by
  constructor
  · exact (list_matching_rule (fun _ _ => false) "" []
      ⟨1, 0, "a", 2000, 90, some ["drama"], 1⟩ ["drama"] rfl).2.1
  · exact (list_matching_rule (fun _ _ => false) "" ["drama"]
      ⟨1, 0, "a", 2000, 90, some ["drama"], 1⟩ ["drama"] rfl).1.mpr
      (by refine ⟨.inl rfl, .inr ?_⟩; decide)

/-- Three-way comparison yields lt exactly on strictly smaller
arguments. -/
theorem cmp3_eq_lt {α : Type} [LinearOrder α] (a b : α) : cmp3 a b = .lt ↔ a < b := by
  unfold cmp3
  by_cases h1 : a < b
  · simp [h1]
  · by_cases h2 : a = b <;> simp [h1, h2]

/-- Three-way comparison yields eq exactly on equal arguments. -/
theorem cmp3_eq_eq {α : Type} [LinearOrder α] (a b : α) : cmp3 a b = .eq ↔ a = b := by
  unfold cmp3
  by_cases h1 : a < b
  · simp [h1]
    exact ne_of_lt h1
  · by_cases h2 : a = b <;> simp [h1, h2]

/-- Three-way comparison yields gt exactly on strictly larger
arguments. -/
theorem cmp3_eq_gt {α : Type} [LinearOrder α] (a b : α) : cmp3 a b = .gt ↔ b < a := by
  unfold cmp3
  by_cases h1 : a < b
  · simp [h1]
    exact le_of_lt h1
  · by_cases h2 : a = b
    · simp [h1, h2]
    · simp [h1, h2]
      exact lt_of_le_of_ne (le_of_not_lt h1) (Ne.symm h2)

/-- Swapping the arguments swaps the three-way comparison. -/
theorem cmp3_swap {α : Type} [LinearOrder α] (a b : α) : (cmp3 a b).swap = cmp3 b a := by
  rcases lt_trichotomy a b with h | h | h
  · rw [(cmp3_eq_lt a b).mpr h, (cmp3_eq_gt b a).mpr h]
    rfl
  · rw [(cmp3_eq_eq a b).mpr h, (cmp3_eq_eq b a).mpr h.symm]
    rfl
  · rw [(cmp3_eq_gt a b).mpr h, (cmp3_eq_lt b a).mpr h]
    rfl

/-- Sequencing of orderings is eq exactly when both parts are. -/
theorem then_eq_eq (x y : Ordering) : x.then y = .eq ↔ x = .eq ∧ y = .eq := by
  cases x <;> simp [Ordering.then]

/-- Swap distributes over sequencing of orderings. -/
theorem then_swap (x y : Ordering) : (x.then y).swap = x.swap.then y.swap := by
  cases x <;> rfl

/-- Swap commutes with the direction application. -/
theorem dirOrd_swap (d : Bool) (o : Ordering) : (dirOrd d o).swap = dirOrd d o.swap := by
  cases d <;> simp [dirOrd, Ordering.swap_swap]

/-- Direction application is eq exactly when the comparison is. -/
theorem dirOrd_eq_eq (d : Bool) (o : Ordering) : dirOrd d o = .eq ↔ o = .eq := by
  cases d <;> cases o <;> simp [dirOrd, Ordering.swap]

/-- Swapping rows swaps the column comparison. -/
theorem cmpCol_swap (c : SortColumn) (a b : Movie) : (cmpCol c a b).swap = cmpCol c b a := by
  cases c <;> simp [cmpCol, cmp3_swap]

/-- Swapping rows swaps the full row comparison. -/
theorem cmpRows_swap (c : SortColumn) (d : Bool) (a b : Movie) :
    (cmpRows c d a b).swap = cmpRows c d b a := by
  unfold cmpRows
  rw [then_swap, dirOrd_swap, cmpCol_swap, cmp3_swap]

/-- Row comparison is eq exactly when the sort column compares equal and
the ids coincide. -/
theorem cmpRows_eq_iff (c : SortColumn) (d : Bool) (a b : Movie) :
    cmpRows c d a b = .eq ↔ dirOrd d (cmpCol c a b) = .eq ∧ a.id = b.id := by
  unfold cmpRows
  rw [then_eq_eq, cmp3_eq_eq]

/-- Boolean row order holds exactly when the comparison is not gt. -/
theorem rowLe_iff (c : SortColumn) (d : Bool) (a b : Movie) :
    rowLe c d a b = true ↔ cmpRows c d a b ≠ .gt := by
  unfold rowLe
  cases h : cmpRows c d a b <;> simp

/-- Boolean row order is total. -/
theorem rowLe_total (c : SortColumn) (d : Bool) (a b : Movie) :
    (rowLe c d a b || rowLe c d b a) = true := by
  rw [Bool.or_eq_true, rowLe_iff, rowLe_iff]
  cases h : cmpRows c d a b
  · exact .inl (by simp [h])
  · exact .inl (by simp [h])
  · refine .inr ?_
    have hs := cmpRows_swap c d a b
    rw [h] at hs
    rw [← hs]
    simp [Ordering.swap]

/-- Lexicographic characterization: a sequenced comparison avoids gt
exactly when the first part is lt, or eq with the tie-break at most. -/
theorem then_cmp3_ne_gt (x : Ordering) (i j : Int) :
    x.then (cmp3 i j) ≠ .gt ↔ x = .lt ∨ (x = .eq ∧ i ≤ j) := by
  cases x
  · simp [Ordering.then]
  · simp only [Ordering.then]
    rw [Ne, cmp3_eq_gt, not_lt]
    simp
  · simp [Ordering.then]

/-- Transitivity of the lexicographic order with ascending key. -/
theorem lex_trans_asc {β : Type} [LinearOrder β] {x y z : β} {i j k : Int}
    (h1 : x < y ∨ (x = y ∧ i ≤ j)) (h2 : y < z ∨ (y = z ∧ j ≤ k)) :
    x < z ∨ (x = z ∧ i ≤ k) := by
  rcases h1 with h1 | ⟨h1, hij⟩ <;> rcases h2 with h2 | ⟨h2, hjk⟩
  · exact .inl (lt_trans h1 h2)
  · exact .inl (h2 ▸ h1)
  · exact .inl (h1 ▸ h2)
  · exact .inr ⟨h1.trans h2, le_trans hij hjk⟩

/-- Transitivity of the lexicographic order with descending key. -/
theorem lex_trans_desc {β : Type} [LinearOrder β] {x y z : β} {i j k : Int}
    (h1 : y < x ∨ (y = x ∧ i ≤ j)) (h2 : z < y ∨ (z = y ∧ j ≤ k)) :
    z < x ∨ (z = x ∧ i ≤ k) := by
  rcases h1 with h1 | ⟨h1, hij⟩ <;> rcases h2 with h2 | ⟨h2, hjk⟩
  · exact .inl (lt_trans h2 h1)
  · exact .inl (h2 ▸ h1)
  · exact .inl (h1 ▸ h2)
  · exact .inr ⟨h2.trans h1, le_trans hij hjk⟩

/-- Boolean row order is transitive. -/
theorem rowLe_trans (c : SortColumn) (d : Bool) (a b e : Movie)
    (h1 : rowLe c d a b = true) (h2 : rowLe c d b e = true) :
    rowLe c d a e = true := by
  rw [rowLe_iff] at h1 h2 ⊢
  unfold cmpRows dirOrd at h1 h2 ⊢
  cases d
  · simp only [Bool.false_eq_true, if_false] at h1 h2 ⊢
    rw [then_cmp3_ne_gt] at h1 h2 ⊢
    cases c <;>
    · simp only [cmpCol, cmp3_eq_lt, cmp3_eq_eq] at h1 h2 ⊢
      exact lex_trans_asc h1 h2
  · simp only [eq_self_iff_true, if_true] at h1 h2 ⊢
    rw [cmpCol_swap] at h1 h2 ⊢
    rw [then_cmp3_ne_gt] at h1 h2 ⊢
    cases c <;>
    · simp only [cmpCol, cmp3_eq_lt, cmp3_eq_eq] at h1 h2 ⊢
      exact lex_trans_desc h1 h2

/-- Concatenating the consecutive size-ps chunks of a list (as produced
by LIMIT/OFFSET pagination) reassembles the list exactly, once enough
chunks are taken. -/
theorem join_chunks {α : Type} (ps : Nat) :
    ∀ (n : Nat) (l : List α), l.length ≤ n * ps →
      ((List.range n).map (fun k => (l.drop (k * ps)).take ps)).flatten = l := by
  intro n
  induction n with
  | zero =>
    intro l h
    simp only [Nat.zero_mul, Nat.le_zero] at h
    rw [List.length_eq_zero] at h
    simp [h]
  | succ n ih =>
    intro l h
    rw [List.range_succ_eq_map]
    simp only [List.map_cons, List.map_map, List.flatten_cons, Nat.zero_mul,
      List.drop_zero, Function.comp_def]
    have hrw : ∀ k : Nat, l.drop (Nat.succ k * ps) = (l.drop ps).drop (k * ps) := by
      intro k
      rw [List.drop_drop, Nat.succ_mul]
      congr 1
      omega
    simp only [hrw]
    rw [ih (l.drop ps)
      (by rw [List.length_drop]
          have hx : (n + 1) * ps = n * ps + ps := by ring
          omega)]
    exact List.take_append_drop ps l

/-- C6: for a List call with a safelist-validated sort key (any of the
four columns, either direction), the ordering `ORDER BY col dir, id
ASC` is a strict total order — two rows with distinct ids never compare
equal, and the comparison is antisymmetric — the delivered match set is
sorted under it and is a permutation of the filtered rows, each page of
a GetAll call is the corresponding LIMIT/OFFSET slice of that fixed
ordered match set, and the concatenation of successive pages
reassembles it exactly: no row is repeated or skipped. -/
theorem list_ordering_contract (ft : String → String → Bool) (db : DBState)
    (search : String) (tags : List String) (c : SortColumn) (desc : Bool)
    (ps numPages : Nat)
    (hcover : (sortedMatches ft db search tags c desc).length ≤ numPages * ps) :
    (∀ a b : Movie, a.id ≠ b.id → cmpRows c desc a b ≠ .eq) ∧
    (∀ a b : Movie, cmpRows c desc a b = .lt ↔ cmpRows c desc b a = .gt) ∧
    (sortedMatches ft db search tags c desc).Pairwise
      (fun a b => rowLe c desc a b = true) ∧
    (sortedMatches ft db search tags c desc).Perm
      (db.rows.filter (rowMatches ft search tags)) ∧
    ((List.range numPages).map (fun (k : Nat) =>
        listPage ft db search tags c desc ((k : Int) + 1) (ps : Int))).flatten =
      sortedMatches ft db search tags c desc ∧
    (∀ f : Filters, ∃ md, MovieModel.GetAll ft db none search tags f c desc =
      .ok (listPage ft db search tags c desc f.page f.pageSize, md)) := by
  refine ⟨?_, ?_, ?_, ?_, ?_, ?_⟩
  · intro a b h
    rw [Ne, cmpRows_eq_iff]
    rintro ⟨-, h2⟩
    exact h h2
  · intro a b
    have hs := cmpRows_swap c desc a b
    constructor
    · intro h
      rw [h] at hs
      rw [← hs]
      rfl
    · intro h
      rw [h] at hs
      cases he : cmpRows c desc a b <;> rw [he] at hs <;> first | rfl | exact absurd hs (by decide)
  · exact List.sorted_mergeSort
      (fun x y z hxy hyz => rowLe_trans c desc x y z hxy hyz)
      (fun x y => rowLe_total c desc x y)
      (db.rows.filter (rowMatches ft search tags))
  · exact List.mergeSort_perm _ _
  · have hpage : ∀ k : Nat,
        listPage ft db search tags c desc ((k : Int) + 1) (ps : Int) =
          ((sortedMatches ft db search tags c desc).drop (k * ps)).take ps := by
      intro k
      unfold listPage
      have h1 : (((k : Int) + 1 - 1) * (ps : Int)).toNat = k * ps := by
        have hx : ((k : Int) + 1 - 1) * (ps : Int) = ((k * ps : Nat) : Int) := by
          push_cast
          ring
        rw [hx, Int.toNat_natCast]
      have h2 : ((ps : Nat) : Int).toNat = ps := Int.toNat_natCast ps
      rw [h1, h2]
    simp only [hpage]
    exact join_chunks ps numPages _ hcover
  · intro f
    exact ⟨_, rfl⟩

/-- Witness for C6: on a one-matching-row table with page size 1, the
single page reassembles the whole ordered match set. -/
theorem list_ordering_contract_witness :
    ((List.range 1).map (fun (k : Nat) =>
        listPage (fun _ _ => false) ⟨[⟨1, 0, "a", 2000, 90, some ["drama"], 1⟩], 2⟩
          "" [] .id false ((k : Int) + 1) (1 : Int))).flatten =
      sortedMatches (fun _ _ => false) ⟨[⟨1, 0, "a", 2000, 90, some ["drama"], 1⟩], 2⟩
        "" [] .id false := by
  have hsm : sortedMatches (fun _ _ => false)
      ⟨[⟨1, 0, "a", 2000, 90, some ["drama"], 1⟩], 2⟩ "" [] .id false =
      [⟨1, 0, "a", 2000, 90, some ["drama"], 1⟩] := by
    unfold sortedMatches
    rw [show (⟨[⟨1, 0, "a", 2000, 90, some ["drama"], 1⟩], 2⟩ : DBState).rows.filter
        (rowMatches (fun _ _ => false) "" []) = [⟨1, 0, "a", 2000, 90, some ["drama"], 1⟩]
      from by decide]
    exact List.mergeSort_singleton _
  exact (list_ordering_contract (fun _ _ => false)
      ⟨[⟨1, 0, "a", 2000, 90, some ["drama"], 1⟩], 2⟩ "" [] .id false 1 1
      (by rw [hsm]; decide)).2.2.2.2.1

end Greenlight
